import Mathlib

/-!
A shallow embedding of `src/qibo/noise.py`: the error-descriptor classes
`PauliError`, `ThermalRelaxationError`, `ResetError`, and the `NoiseModel`
class with its `add` (registration) and `apply` (noise injection) methods.

Modelling conventions:
* A connection point (qubit) is an `Int`.  Numeric error parameters are
  rationals (`Rat`); no arithmetic is ever performed on them, they are only
  stored and passed through, so any type with decidable equality is faithful.
* A Python value that is either `None`, a single `int`, or a tuple of qubits
  (the filter arguments of `add`) is the inductive `PyArg`.
* A stored filter slot (after `add` ran) is `Option (List Int)`:
  `none` models Python `None`, `some l` models a tuple.
* The dictionary `self.errors` is an association list from the operation-type
  identity (a `Nat` standing for the gate class object) to the stored entry;
  Python dict assignment is modelled as insertion that replaces any previous
  binding for the key.
* Python code that raises an exception is modelled with `Except String`.
-/

set_option autoImplicit false

namespace Qibo

/-- Modelled from the spec: the `qibo.gates` module is not part of the
analyzed sources, so channel constructors are identified by distinct tags;
a channel operation records its constructor tag, its single connection point
and the parameter tuple it was called with (§4.1, §6 of the spec). -/
def PauliNoiseChannel : Nat := 0

/-- Modelled from the spec: tag of `gates.ThermalRelaxationChannel`. -/
def ThermalRelaxationChannel : Nat := 1

/-- Modelled from the spec: tag of `gates.ResetChannel`. -/
def ResetChannel : Nat := 2

/-- An entry of an options tuple: a number, or Python `None` (for seeds). -/
abbrev OptVal := Option Rat

/-- An error descriptor: `self.channel` (a reference to the channel class)
and `self.options` (the stored parameter tuple). -/
structure ErrorDesc where
  channel : Nat
  options : List OptVal
  deriving DecidableEq, Repr

/-- `PauliError.__init__`: `self.options = px, py, pz, seed`;
`self.channel = gates.PauliNoiseChannel`. -/
def PauliError (px py pz : Rat) (seed : OptVal) : ErrorDesc :=
  { channel := PauliNoiseChannel, options := [some px, some py, some pz, seed] }

/-- `ThermalRelaxationError.__init__`:
`self.options = t1, t2, time, excited_population, seed`;
`self.channel = gates.ThermalRelaxationChannel`. -/
def ThermalRelaxationError (t1 t2 time excited_population : Rat) (seed : OptVal) :
    ErrorDesc :=
  { channel := ThermalRelaxationChannel,
    options := [some t1, some t2, some time, some excited_population, seed] }

/-- `ResetError.__init__`: `self.options = p0, p1, seed`;
`self.channel = gates.ResetChannel`. -/
def ResetError (p0 p1 : Rat) (seed : OptVal) : ErrorDesc :=
  { channel := ResetChannel, options := [some p0, some p1, seed] }

/-- An operation (gate) instance: its type identity (`__class__`), the tuple
of connection points it acts on (`.qubits`), and, when the operation is an
error channel produced by `error.channel(q, *error.options)`, the parameter
tuple it was constructed with (empty for ordinary gates).
Modelled from the spec for the part outside `noise.py`: an operation carries
a stable type identity and its connection points (§6). -/
structure Op where
  cls : Nat
  qubits : List Int
  options : List OptVal
  deriving DecidableEq, Repr

/-- The channel operation `error.channel(q, *error.options)`. -/
def channelOp (e : ErrorDesc) (q : Int) : Op :=
  { cls := e.channel, qubits := [q], options := e.options }

/-- A stored registration entry `(error, qubits, target_qubits)`. -/
structure Entry where
  error : ErrorDesc
  source : Option (List Int)
  target : Option (List Int)
  deriving DecidableEq, Repr

/-- The registration table `self.errors` as an association list. -/
abbrev Table := List (Nat × Entry)

/-- A Python argument that is `None`, a single `int`, or a tuple. -/
inductive PyArg where
  | none : PyArg
  | int (n : Int) : PyArg
  | tuple (l : List Int) : PyArg
  deriving DecidableEq, Repr

/-- The value the `add` code leaves in `target_qubits` after its
`isinstance(target_qubits, int)` normalization: an `int` becomes a
one-element tuple, anything else is stored as given. -/
def pyNormalize : PyArg → Option (List Int)
  | PyArg.none => Option.none
  | PyArg.int n => some [n]
  | PyArg.tuple l => some l

/-- Dictionary lookup `self.errors.get(gate.__class__)` (also deciding
`gate.__class__ in self.errors`). -/
def NoiseModel.lookup : Table → Nat → Option Entry
  | [], _ => Option.none
  | (k, ent) :: rest, g => if k = g then some ent else NoiseModel.lookup rest g

/-- Removal of every binding for a key; together with consing, this models
dict assignment (the new binding replaces any previous one). -/
def dictErase : Table → Nat → Table
  | [], _ => []
  | (k, ent) :: rest, g =>
      if k = g then dictErase rest g else (k, ent) :: dictErase rest g

/-- Python dict assignment `self.errors[gate] = ent`. -/
def dictInsert (errors : Table) (g : Nat) (ent : Entry) : Table :=
  (g, ent) :: dictErase errors g

/-- Number of bindings a key has in the table. -/
def countKey : Table → Nat → Nat
  | [], _ => 0
  | (k, _) :: rest, g => (if k = g then 1 else 0) + countKey rest g

/-- `NoiseModel.add(error, gate, source_qubits, target_qubits)`.
The local `qubits` is assigned only inside `if isinstance(source_qubits, int)`;
for every other `source_qubits` the statement
`self.errors[gate] = (error, qubits, target_qubits)` raises
`UnboundLocalError`, leaving the table unmodified. -/
def NoiseModel.add (errors : Table) (error : ErrorDesc) (g : Nat)
    (source_qubits target_qubits : PyArg) : Except String Table :=
  match source_qubits with
  | PyArg.int n =>
      Except.ok (dictInsert errors g
        { error := error, source := some [n], target := pyNormalize target_qubits })
  | _ => Except.error "UnboundLocalError: local variable qubits"

/-- Python truthiness of a stored filter slot: `None` and the empty tuple
are falsy, a non-empty tuple is truthy. -/
def pyTruthy : Option (List Int) → Bool
  | Option.none => false
  | some l => !l.isEmpty

/-- `tuple(set(a) & set(b))`: the distinct elements of `a` that also occur
in `b`.  CPython iterates a set in an unspecified order; we fix the order of
first appearance in `a`, and every claim about this value is stated at the
level of the underlying set. -/
def pyInter (a b : List Int) : List Int :=
  a.dedup.filter (fun x => decide (x ∈ b))

/-- The qubit-selection policy of `NoiseModel.apply` (the `if`/`elif` chain
computing `qubits` for one gate).  The two `Except.error` branches are the
`TypeError` that `set(source_qubits)` (resp. iterating `target_qubits`)
raises when that value is `None`. -/
def selectQubits (gq : List Int) (source target : Option (List Int)) :
    Except String (List Int) :=
  if source = Option.none ∧ target = Option.none then
    Except.ok gq
  else if source = Option.none ∧ pyTruthy target = true then
    Except.ok (target.getD [])
  else if pyTruthy source = true ∧ target = Option.none then
    Except.ok (pyInter gq (source.getD []))
  else
    match source with
    | Option.none => Except.error "TypeError: NoneType is not iterable"
    | some s =>
        let I := pyInter gq s
        if I = [] then Except.ok I
        else
          match target with
          | Option.none => Except.error "TypeError: NoneType is not iterable"
          | some t => Except.ok t

/-- The body of the `for gate in circuit.queue` loop of `NoiseModel.apply`
for one gate: the gate itself, followed by one channel operation
`error.channel(q, *error.options)` per selected qubit `q`, in order. -/
def processOp (errors : Table) (op : Op) : Except String (List Op) :=
  match NoiseModel.lookup errors op.cls with
  | Option.none => Except.ok [op]
  | some ent =>
      (selectQubits op.qubits ent.source ent.target).map
        (fun qs => op :: qs.map (channelOp ent.error))

/-- The whole loop of `NoiseModel.apply`, producing the queue of the noisy
circuit left to right; an exception aborts the traversal. -/
def applyQueue (errors : Table) : List Op → Except String (List Op)
  | [] => Except.ok []
  | op :: rest => do
      let block ← processOp errors op
      let tail ← applyQueue errors rest
      pure (block ++ tail)

/-- Modelled from the spec for the part outside `noise.py`: the circuit
collaborator exposes construction parameters (`init_kwargs`), the operation
queue, and the four pass-through metadata fields; `circuit.__class__(**circuit.init_kwargs)`
yields an empty circuit with the same construction parameters and
`circuit.add` appends to the queue (§6 of the spec). -/
structure Circuit where
  init_kwargs : Nat
  queue : List Op
  parametrized_gates : List Nat
  trainable_gates : List Nat
  measurement_tuples : List (Nat × List Int)
  measurement_gate : Option Nat
  deriving DecidableEq, Repr

/-- `NoiseModel.apply(circuit)`: a fresh circuit with the same construction
parameters, the rewritten queue, and the four metadata fields copied from
the input. -/
def NoiseModel.apply (errors : Table) (circuit : Circuit) : Except String Circuit :=
  (applyQueue errors circuit.queue).map
    (fun q =>
      { init_kwargs := circuit.init_kwargs
        queue := q
        parametrized_gates := circuit.parametrized_gates
        trainable_gates := circuit.trainable_gates
        measurement_tuples := circuit.measurement_tuples
        measurement_gate := circuit.measurement_gate })

/-- A sample error descriptor used by witnesses. -/
def sampleError : ErrorDesc := PauliError 0 0 0 Option.none

/-- A second sample error descriptor used by witnesses. -/
def sampleError2 : ErrorDesc := ResetError 1 0 (some 5)

/-- A sample gate of class `7` on qubit `0`, used by witnesses. -/
def sampleOp : Op := { cls := 7, qubits := [0], options := [] }

/-- A sample circuit holding `sampleOp`, used by witnesses. -/
def sampleCircuit : Circuit :=
  { init_kwargs := 2
    queue := [sampleOp]
    parametrized_gates := [3]
    trainable_gates := [4]
    measurement_tuples := [(1, [0])]
    measurement_gate := some 9 }

theorem pyInter_nil (a : List Int) : pyInter a [] = [] := by
  simp [pyInter]

theorem pyInter_toFinset (a b : List Int) :
    (pyInter a b).toFinset = a.toFinset ∩ b.toFinset := by
  ext x
  simp [pyInter, List.mem_filter]

theorem pyInter_eq_nil_of_disjoint (a b : List Int)
    (h : a.toFinset ∩ b.toFinset = ∅) : pyInter a b = [] := by
  have h2 : (pyInter a b).toFinset = ∅ := by
    rw [pyInter_toFinset]; exact h
  simpa [List.toFinset_eq_empty_iff] using h2

theorem selectQubits_none_none (gq : List Int) :
    selectQubits gq Option.none Option.none = Except.ok gq := by
  simp [selectQubits]

theorem selectQubits_target_only (gq : List Int) (t : List Int) (ht : t ≠ []) :
    selectQubits gq Option.none (some t) = Except.ok t := by
  cases t with
  | nil => exact absurd rfl ht
  | cons hd tl => simp [selectQubits, pyTruthy]

theorem selectQubits_source_only (gq : List Int) (s : List Int) :
    selectQubits gq (some s) Option.none = Except.ok (pyInter gq s) := by
  cases s with
  | nil => simp [selectQubits, pyTruthy, pyInter_nil]
  | cons hd tl => simp [selectQubits, pyTruthy]

theorem selectQubits_both (gq : List Int) (s t : List Int) :
    selectQubits gq (some s) (some t)
      = Except.ok (if pyInter gq s = [] then [] else t) := by
  simp only [selectQubits, pyTruthy]
  split
  · rename_i hc; exact absurd hc (by simp)
  · split
    · rename_i hc; exact absurd hc (by simp)
    · split
      · rename_i hc; exact absurd hc (by simp)
      · split
        · rename_i heq; simp_all
        · rename_i heq; simp_all

theorem processOp_entry (errors : Table) (g : Op) (ent : Entry) (qs : List Int)
    (h : NoiseModel.lookup errors g.cls = some ent)
    (hsel : selectQubits g.qubits ent.source ent.target = Except.ok qs) :
    processOp errors g = Except.ok (g :: qs.map (channelOp ent.error)) := by
  simp [processOp, h, hsel, Except.map]

theorem applyQueue_cons_ok (errors : Table) (op : Op) (rest : List Op)
    (block tail : List Op)
    (h1 : processOp errors op = Except.ok block)
    (h2 : applyQueue errors rest = Except.ok tail) :
    applyQueue errors (op :: rest) = Except.ok (block ++ tail) := by
  simp [applyQueue, h1, h2, Bind.bind, Except.bind, Pure.pure, Except.pure]

theorem applyQueue_append_ok (errors : Table) (l1 : List Op) :
    ∀ (l2 A B : List Op),
      applyQueue errors l1 = Except.ok A → applyQueue errors l2 = Except.ok B →
      applyQueue errors (l1 ++ l2) = Except.ok (A ++ B) := by
  induction l1 with
  | nil =>
      intro l2 A B hA hB
      simp only [applyQueue] at hA
      cases hA
      simpa using hB
  | cons op rest ih =>
      intro l2 A B hA hB
      simp only [applyQueue, Bind.bind, Except.bind] at hA
      cases hop : processOp errors op with
      | error e => rw [hop] at hA; cases hA
      | ok block =>
          rw [hop] at hA
          cases hrest : applyQueue errors rest with
          | error e => rw [hrest] at hA; cases hA
          | ok tail =>
              rw [hrest] at hA
              simp only [Pure.pure, Except.pure] at hA
              cases hA
              have htail : applyQueue errors (rest ++ l2) = Except.ok (tail ++ B) :=
                ih l2 tail B hrest hB
              rw [List.cons_append]
              rw [applyQueue_cons_ok errors op (rest ++ l2) block (tail ++ B) hop htail]
              simp

theorem applyQueue_empty_table (q : List Op) : applyQueue [] q = Except.ok q := by
  induction q with
  | nil => rfl
  | cons op rest ih =>
      have hop : processOp [] op = Except.ok [op] := rfl
      simpa using applyQueue_cons_ok [] op rest [op] rest hop ih

theorem dictErase_idem (t : Table) (g : Nat) :
    dictErase (dictErase t g) g = dictErase t g := by
  induction t with
  | nil => rfl
  | cons p rest ih =>
      obtain ⟨k, ent⟩ := p
      by_cases hk : k = g
      · simp [dictErase, hk, ih]
      · simp [dictErase, hk, ih]

theorem countKey_dictErase (t : Table) (g : Nat) :
    countKey (dictErase t g) g = 0 := by
  induction t with
  | nil => rfl
  | cons p rest ih =>
      obtain ⟨k, ent⟩ := p
      by_cases hk : k = g
      · simp [dictErase, hk, ih]
      · simp [dictErase, countKey, hk, ih]

theorem apply_context (errors : Table) (g : Op) (block : List Op)
    (hblock : processOp errors g = Except.ok block)
    (c : Circuit) (pre post A B : List Op)
    (hq : c.queue = pre ++ g :: post)
    (hA : applyQueue errors pre = Except.ok A)
    (hB : applyQueue errors post = Except.ok B) :
    NoiseModel.apply errors c = Except.ok { c with queue := A ++ block ++ B } := by
  have h1 : applyQueue errors (g :: post) = Except.ok (block ++ B) :=
    applyQueue_cons_ok errors g post block B hblock hB
  have h2 : applyQueue errors (pre ++ g :: post) = Except.ok (A ++ (block ++ B)) :=
    applyQueue_append_ok errors pre (g :: post) A (block ++ B) hA h1
  simp [NoiseModel.apply, hq, h2, Except.map, List.append_assoc]

/-- Claim C4: applying a `NoiseModel` with an empty registration table returns
a circuit equal to the input in operation order and content (pure
pass-through, no injected operations, metadata unchanged). -/
theorem noise_empty_table_passthrough (c : Circuit) :
    NoiseModel.apply ([] : Table) c = Except.ok c := by
  simp [NoiseModel.apply, applyQueue_empty_table c.queue, Except.map]

/-- Claim C3: for an operation type registered with no source filter and no
target filter, every occurrence of that type yields, under `apply`, exactly
one injected channel operation per connection point the occurrence touches,
placed immediately after the occurrence, in the occurrence's own
connection-point order. -/
theorem noise_nofilter_injection (errors : Table) (e : ErrorDesc) (g : Op)
    (h : NoiseModel.lookup errors g.cls
      = some { error := e, source := Option.none, target := Option.none })
    (c : Circuit) (pre post A B : List Op)
    (hq : c.queue = pre ++ g :: post)
    (hA : applyQueue errors pre = Except.ok A)
    (hB : applyQueue errors post = Except.ok B) :
    NoiseModel.apply errors c
      = Except.ok { c with queue := A ++ (g :: g.qubits.map (channelOp e)) ++ B } :=
  apply_context errors g _
    (processOp_entry errors g _ g.qubits h (selectQubits_none_none g.qubits))
    c pre post A B hq hA hB

/-- Witness for C3: a Pauli error registered for class `7` with no filters
injects one channel on qubit `0` right after the sample gate. -/
theorem noise_nofilter_injection_witness :
    NoiseModel.apply
        [(7, { error := sampleError, source := Option.none, target := Option.none })]
        sampleCircuit
      = Except.ok { sampleCircuit with
          queue := [] ++ (sampleOp :: sampleOp.qubits.map (channelOp sampleError)) ++ [] } :=
  noise_nofilter_injection
    [(7, { error := sampleError, source := Option.none, target := Option.none })]
    sampleError sampleOp rfl sampleCircuit [] [] [] [] rfl rfl rfl

/-- Claim C5: for a registration with only a source filter, the injected
channel operations sit on exactly `g.connection_points ∩ source_filter`, and
when that intersection is empty zero channel operations are injected. -/
theorem noise_source_only_injection (errors : Table) (e : ErrorDesc)
    (s : List Int) (g : Op)
    (h : NoiseModel.lookup errors g.cls
      = some { error := e, source := some s, target := Option.none })
    (c : Circuit) (pre post A B : List Op)
    (hq : c.queue = pre ++ g :: post)
    (hA : applyQueue errors pre = Except.ok A)
    (hB : applyQueue errors post = Except.ok B) :
    (NoiseModel.apply errors c
      = Except.ok { c with
          queue := A ++ (g :: (pyInter g.qubits s).map (channelOp e)) ++ B })
    ∧ (pyInter g.qubits s).toFinset = g.qubits.toFinset ∩ s.toFinset
    ∧ (g.qubits.toFinset ∩ s.toFinset = ∅ →
        (pyInter g.qubits s).map (channelOp e) = []) :=
  ⟨apply_context errors g _
      (processOp_entry errors g _ _ h (selectQubits_source_only g.qubits s))
      c pre post A B hq hA hB,
   pyInter_toFinset _ _,
   fun hd => by rw [pyInter_eq_nil_of_disjoint _ _ hd]; rfl⟩

/-- Witness for C5: a source filter `[0, 1]` against the sample gate on
qubit `0` injects exactly on the intersection `[0]`. -/
theorem noise_source_only_injection_witness :
    (NoiseModel.apply
        [(7, { error := sampleError, source := some [0, 1], target := Option.none })]
        sampleCircuit
      = Except.ok { sampleCircuit with
          queue := [] ++ (sampleOp :: (pyInter sampleOp.qubits [0, 1]).map (channelOp sampleError)) ++ [] })
    ∧ (pyInter sampleOp.qubits [0, 1]).toFinset
        = sampleOp.qubits.toFinset ∩ ([0, 1] : List Int).toFinset
    ∧ (sampleOp.qubits.toFinset ∩ ([0, 1] : List Int).toFinset = ∅ →
        (pyInter sampleOp.qubits [0, 1]).map (channelOp sampleError) = []) :=
  noise_source_only_injection
    [(7, { error := sampleError, source := some [0, 1], target := Option.none })]
    sampleError [0, 1] sampleOp rfl sampleCircuit [] [] [] [] rfl rfl rfl

/-- Counterexample to C6 as stated: a registration whose target filter is
present but the empty tuple makes `apply` raise (the `else` branch evaluates
`set(source_qubits)` with `source_qubits = None`), so no output sequence with
injected points equal to the target filter exists. -/
theorem noise_target_only_counterexample :
    NoiseModel.apply
        [(7, { error := sampleError, source := Option.none, target := some [] })]
        sampleCircuit
      = Except.error "TypeError: NoneType is not iterable"
    ∧ (NoiseModel.apply
        [(7, { error := sampleError, source := Option.none, target := some [] })]
        sampleCircuit).toOption = Option.none :=
  ⟨rfl, rfl⟩

/-- Claim C6 (amended): for a registration with only a non-empty target
filter present, the injected channel operations sit on exactly the target
filter, independently of the triggering operation's own connection points. -/
theorem noise_target_only_amended (errors : Table) (e : ErrorDesc)
    (t : List Int) (g : Op)
    (h : NoiseModel.lookup errors g.cls
      = some { error := e, source := Option.none, target := some t })
    (ht : t ≠ [])
    (c : Circuit) (pre post A B : List Op)
    (hq : c.queue = pre ++ g :: post)
    (hA : applyQueue errors pre = Except.ok A)
    (hB : applyQueue errors post = Except.ok B) :
    NoiseModel.apply errors c
      = Except.ok { c with queue := A ++ (g :: t.map (channelOp e)) ++ B } :=
  apply_context errors g _
    (processOp_entry errors g _ _ h (selectQubits_target_only g.qubits t ht))
    c pre post A B hq hA hB

/-- Witness for C6 (amended): target filter `[5, 6]` injects on `5` and `6`
even though the sample gate touches only qubit `0`. -/
theorem noise_target_only_amended_witness :
    NoiseModel.apply
        [(7, { error := sampleError, source := Option.none, target := some [5, 6] })]
        sampleCircuit
      = Except.ok { sampleCircuit with
          queue := [] ++ (sampleOp :: ([5, 6] : List Int).map (channelOp sampleError)) ++ [] } :=
  noise_target_only_amended
    [(7, { error := sampleError, source := Option.none, target := some [5, 6] })]
    sampleError [5, 6] sampleOp rfl (by simp) sampleCircuit [] [] [] [] rfl rfl rfl

/-- Counterexample to C1 as stated: with source filter `[1]` and target
filter `[2]` registered for class `7`, the sample gate on qubit `0` has empty
intersection with the source filter and the code injects nothing, whereas the
claim demands a channel on the target filter point `2`. -/
theorem noise_both_filters_counterexample :
    NoiseModel.apply
        [(7, { error := sampleError, source := some [1], target := some [2] })]
        sampleCircuit
      = Except.ok { sampleCircuit with queue := [sampleOp] }
    ∧ ({ sampleCircuit with queue := [sampleOp] } : Circuit)
        ≠ { sampleCircuit with queue := [sampleOp, channelOp sampleError 2] } :=
  ⟨rfl, by decide⟩

/-- Claim C1 (amended): when both filters are present the code computes
`I = g.connection_points ∩ source_filter`; if `I` is empty it injects
nothing, and only if `I` is non-empty does it inject on exactly the points
of the target filter. -/
theorem noise_both_filters_amended (errors : Table) (e : ErrorDesc)
    (s t : List Int) (g : Op)
    (h : NoiseModel.lookup errors g.cls
      = some { error := e, source := some s, target := some t })
    (c : Circuit) (pre post A B : List Op)
    (hq : c.queue = pre ++ g :: post)
    (hA : applyQueue errors pre = Except.ok A)
    (hB : applyQueue errors post = Except.ok B) :
    (NoiseModel.apply errors c
      = Except.ok { c with queue :=
          A ++ (g :: (if pyInter g.qubits s = [] then [] else t).map (channelOp e)) ++ B })
    ∧ (pyInter g.qubits s).toFinset = g.qubits.toFinset ∩ s.toFinset :=
  ⟨apply_context errors g _
      (processOp_entry errors g _ _ h (selectQubits_both g.qubits s t))
      c pre post A B hq hA hB,
   pyInter_toFinset _ _⟩

/-- Witness for C1 (amended): source filter `[0]` intersects the sample
gate's qubit `0`, so the channel goes on the target filter point `2`. -/
theorem noise_both_filters_amended_witness :
    (NoiseModel.apply
        [(7, { error := sampleError, source := some [0], target := some [2] })]
        sampleCircuit
      = Except.ok { sampleCircuit with queue :=
          [] ++ (sampleOp ::
            (if pyInter sampleOp.qubits [0] = [] then [] else ([2] : List Int)).map
              (channelOp sampleError)) ++ [] })
    ∧ (pyInter sampleOp.qubits [0]).toFinset
        = sampleOp.qubits.toFinset ∩ ([0] : List Int).toFinset :=
  noise_both_filters_amended
    [(7, { error := sampleError, source := some [0], target := some [2] })]
    sampleError [0] [2] sampleOp rfl sampleCircuit [] [] [] [] rfl rfl rfl

/-- Claim C10: a registration with a non-empty source filter and a present
but empty target filter injects zero channel operations for every matching
operation, whether or not the operation's connection points meet the source
filter (the code tests the target filter by truthiness, not presence). -/
theorem noise_empty_target_filter (errors : Table) (e : ErrorDesc)
    (s : List Int) (g : Op)
    (h : NoiseModel.lookup errors g.cls
      = some { error := e, source := some s, target := some [] })
    (_hs : s ≠ [])
    (c : Circuit) (pre post A B : List Op)
    (hq : c.queue = pre ++ g :: post)
    (hA : applyQueue errors pre = Except.ok A)
    (hB : applyQueue errors post = Except.ok B) :
    NoiseModel.apply errors c
      = Except.ok { c with queue := A ++ [g] ++ B } := by
  have hsel : selectQubits g.qubits (some s) (some []) = Except.ok [] := by
    rw [selectQubits_both g.qubits s []]
    simp
  exact apply_context errors g _
    (processOp_entry errors g _ [] h hsel) c pre post A B hq hA hB

/-- Witness for C10: source filter `[0]` matches the sample gate's qubit
`0`, yet the empty target filter yields zero injected channels. -/
theorem noise_empty_target_filter_witness :
    NoiseModel.apply
        [(7, { error := sampleError, source := some [0], target := some [] })]
        sampleCircuit
      = Except.ok { sampleCircuit with queue := [] ++ [sampleOp] ++ [] } :=
  noise_empty_target_filter
    [(7, { error := sampleError, source := some [0], target := some [] })]
    sampleError [0] sampleOp rfl (by simp) sampleCircuit [] [] [] [] rfl rfl rfl

/-- Claim C2 (code bug): `NoiseModel.add` only ever assigns the local
`qubits` inside `if isinstance(source_qubits, int)`, so a call whose source
filter is absent (the default, used by the class docstring's own example)
or a tuple raises `UnboundLocalError` instead of storing the entry. -/
theorem noise_add_unbound_local :
    NoiseModel.add [] sampleError 7 PyArg.none PyArg.none
      = Except.error "UnboundLocalError: local variable qubits"
    ∧ NoiseModel.add [] sampleError 7 (PyArg.tuple [0, 1]) (PyArg.int 2)
      = Except.error "UnboundLocalError: local variable qubits" :=
  ⟨rfl, rfl⟩

/-- Claim C7: registering a second error for an already-registered operation
type leaves exactly one entry for that type, the one built from the second
descriptor, and subsequent `apply` calls see exactly the table obtained by
registering only the second descriptor. -/
theorem noise_register_last_write_wins (t t1 t2 : Table) (e1 e2 : ErrorDesc)
    (G : Nat) (n1 n2 : Int) (tg1 tg2 : PyArg)
    (h1 : NoiseModel.add t e1 G (PyArg.int n1) tg1 = Except.ok t1)
    (h2 : NoiseModel.add t1 e2 G (PyArg.int n2) tg2 = Except.ok t2) :
    NoiseModel.lookup t2 G
      = some { error := e2, source := some [n2], target := pyNormalize tg2 }
    ∧ countKey t2 G = 1
    ∧ NoiseModel.add t1 e2 G (PyArg.int n2) tg2
        = NoiseModel.add t e2 G (PyArg.int n2) tg2
    ∧ ∀ c, NoiseModel.apply t2 c
        = NoiseModel.apply
            (dictInsert t G { error := e2, source := some [n2], target := pyNormalize tg2 }) c := by
  simp only [NoiseModel.add] at h1 h2
  injection h1 with h1
  subst h1
  injection h2 with h2
  subst h2
  have htab : dictInsert
      (dictInsert t G { error := e1, source := some [n1], target := pyNormalize tg1 })
      G { error := e2, source := some [n2], target := pyNormalize tg2 }
      = dictInsert t G { error := e2, source := some [n2], target := pyNormalize tg2 } := by
    simp [dictInsert, dictErase, dictErase_idem]
  refine ⟨?_, ?_, ?_, ?_⟩
  · simp [dictInsert, NoiseModel.lookup]
  · simp [dictInsert, countKey, countKey_dictErase]
  · simp only [NoiseModel.add, htab]
  · intro c
    rw [htab]

/-- Witness for C7: two successive registrations for class `7`; the table
keeps exactly the entry built from the second one. -/
theorem noise_register_last_write_wins_witness :
    NoiseModel.lookup [(7, { error := sampleError2, source := some [2], target := some [3] })] 7
      = some { error := sampleError2, source := some [2], target := some [3] }
    ∧ countKey [(7, { error := sampleError2, source := some [2], target := some [3] })] 7 = 1 :=
  ⟨(noise_register_last_write_wins [] [(7, { error := sampleError, source := some [1], target := Option.none })]
      [(7, { error := sampleError2, source := some [2], target := some [3] })]
      sampleError sampleError2 7 1 2 PyArg.none (PyArg.int 3) rfl rfl).1,
   (noise_register_last_write_wins [] [(7, { error := sampleError, source := some [1], target := Option.none })]
      [(7, { error := sampleError2, source := some [2], target := some [3] })]
      sampleError sampleError2 7 1 2 PyArg.none (PyArg.int 3) rfl rfl).2.1⟩

/-- Claim C8: a successful `apply` copies the parametrized-operations list,
the trainable-operations list, the measurement-tuple mapping, the
measurement-operation reference, and the construction parameters unmodified
from the input circuit to the produced circuit. -/
theorem noise_metadata_passthrough (errors : Table) (c c' : Circuit)
    (h : NoiseModel.apply errors c = Except.ok c') :
    c'.parametrized_gates = c.parametrized_gates
    ∧ c'.trainable_gates = c.trainable_gates
    ∧ c'.measurement_tuples = c.measurement_tuples
    ∧ c'.measurement_gate = c.measurement_gate
    ∧ c'.init_kwargs = c.init_kwargs := by
  simp only [NoiseModel.apply] at h
  cases hq : applyQueue errors c.queue with
  | error e =>
      rw [hq] at h
      exact absurd h (by simp [Except.map])
  | ok q =>
      rw [hq] at h
      simp only [Except.map, Except.ok.injEq] at h
      subst h
      exact ⟨rfl, rfl, rfl, rfl, rfl⟩

/-- Witness for C8: the no-filter registration on the sample circuit keeps
all four metadata fields and the construction parameters. -/
theorem noise_metadata_passthrough_witness :
    ({ sampleCircuit with
        queue := [sampleOp, channelOp sampleError 0] } : Circuit).parametrized_gates
      = sampleCircuit.parametrized_gates
    ∧ ({ sampleCircuit with
        queue := [sampleOp, channelOp sampleError 0] } : Circuit).trainable_gates
      = sampleCircuit.trainable_gates
    ∧ ({ sampleCircuit with
        queue := [sampleOp, channelOp sampleError 0] } : Circuit).measurement_tuples
      = sampleCircuit.measurement_tuples
    ∧ ({ sampleCircuit with
        queue := [sampleOp, channelOp sampleError 0] } : Circuit).measurement_gate
      = sampleCircuit.measurement_gate
    ∧ ({ sampleCircuit with
        queue := [sampleOp, channelOp sampleError 0] } : Circuit).init_kwargs
      = sampleCircuit.init_kwargs :=
  noise_metadata_passthrough
    [(7, { error := sampleError, source := Option.none, target := Option.none })]
    sampleCircuit { sampleCircuit with queue := [sampleOp, channelOp sampleError 0] } rfl

/-- Claim C9: each error-descriptor constructor stores its numeric
parameters and optional seed verbatim in its options tuple together with its
channel constructor; `add` stores the descriptor unchanged, and `apply`
injects channels built from exactly the stored descriptor. -/
theorem noise_params_verbatim :
    (∀ px py pz seed, (PauliError px py pz seed).options
        = [some px, some py, some pz, seed]
      ∧ (PauliError px py pz seed).channel = PauliNoiseChannel)
    ∧ (∀ t1 t2 time ep seed, (ThermalRelaxationError t1 t2 time ep seed).options
        = [some t1, some t2, some time, some ep, seed]
      ∧ (ThermalRelaxationError t1 t2 time ep seed).channel = ThermalRelaxationChannel)
    ∧ (∀ p0 p1 seed, (ResetError p0 p1 seed).options = [some p0, some p1, seed]
      ∧ (ResetError p0 p1 seed).channel = ResetChannel)
    ∧ (∀ (errors : Table) (e : ErrorDesc) (G : Nat) (n : Int) (tg : PyArg),
        NoiseModel.add errors e G (PyArg.int n) tg
          = Except.ok (dictInsert errors G
              { error := e, source := some [n], target := pyNormalize tg }))
    ∧ (∀ (errors : Table) (op : Op) (ent : Entry) (block : List Op),
        NoiseModel.lookup errors op.cls = some ent →
        processOp errors op = Except.ok block →
        ∀ x ∈ block.tail, ∃ q, x = channelOp ent.error q) := by
  refine ⟨fun px py pz seed => ⟨rfl, rfl⟩,
    fun t1 t2 time ep seed => ⟨rfl, rfl⟩,
    fun p0 p1 seed => ⟨rfl, rfl⟩,
    fun errors e G n tg => rfl,
    fun errors op ent block hlook hproc x hx => ?_⟩
  simp only [processOp, hlook] at hproc
  cases hsel : selectQubits op.qubits ent.source ent.target with
  | error e =>
      rw [hsel] at hproc
      exact absurd hproc (by simp [Except.map])
  | ok qs =>
      rw [hsel] at hproc
      simp only [Except.map, Except.ok.injEq] at hproc
      subst hproc
      simp only [List.tail_cons, List.mem_map] at hx
      obtain ⟨q, _, hqx⟩ := hx
      exact ⟨q, hqx.symm⟩

/-- Witness for C9: the channel injected after the sample gate is built from
the stored sample descriptor. -/
theorem noise_params_verbatim_witness :
    ∃ q, channelOp sampleError 0 = channelOp sampleError q :=
  noise_params_verbatim.2.2.2.2
    [(7, { error := sampleError, source := Option.none, target := Option.none })]
    sampleOp { error := sampleError, source := Option.none, target := Option.none }
    [sampleOp, channelOp sampleError 0] rfl rfl (channelOp sampleError 0) (by simp)

end Qibo
